import Mathlib

/-!
Verification development for the Quest-Forge response-interpretation and
roll-resolution pipeline.

Shallow embedding of:
  * `src/engine/dice.js`          — cryptographically random dice engine
  * `src/engine/rules.js`         — modifier / proficiency / skill lookup
  * `src/engine/rollResolver.js`  — roll resolution and the bounded
                                    roll → narrate conversation loop
  * `src/llm/responseParser.js`   — JSON extraction, repair, text-roll
                                    detection and event normalization

Conventions of the embedding:
  * JavaScript values flowing out of `JSON.parse` are modelled by the
    inductive `Json`; an absent property is `Option.none`.
  * The browser's `crypto.getRandomValues` 32-bit words and `Math.random`
    draws are modelled as explicit streams threaded through a `RandState`.
  * A JS function that can throw is modelled in `Except String`; a `try`
    / `catch` becomes a `match` on that result.
  * `JSON.parse` itself is a host builtin, not repository code: it is
    modelled by the executable recursive-descent parser `jsonParse` over
    the integer-number fragment of JSON (the claims touch only integer
    numbers), with JS whitespace limited to its ASCII members.
  * Fields named `notation` in the source are called `notationStr` here;
    `id` and `timestamp` fields of roll records (wall-clock values) are
    omitted — no claim mentions them.
-/

namespace QuestForge

/-- JavaScript values as produced by `JSON.parse`: null, booleans, numbers
(integer fragment), strings, arrays and objects (key order preserved). -/
inductive Json where
  | null
  | bool (b : Bool)
  | num (n : Int)
  | str (s : String)
  | arr (elems : List Json)
  | obj (fields : List (String × Json))
  deriving Repr, Inhabited

/-- JS truthiness of a defined value (`NaN` does not arise in the model). -/
def jsTruthy : Json → Bool
  | .null => false
  | .bool b => b
  | .num n => n != 0
  | .str s => s != ""
  | .arr _ => true
  | .obj _ => true

/-- Property access `v[key]` on a non-null JS value: `none` is `undefined`.
Call sites guard the null/undefined receivers (where JS would throw). -/
def jsGet : Json → String → Option Json
  | .obj kvs, key => kvs.lookup key
  | _, _ => none

/-- `v || d` for a possibly-undefined value `v`. -/
def jsOr (v : Option Json) (d : Json) : Json :=
  match v with
  | some x => if jsTruthy x then x else d
  | none => d

/-- `typeof v === 'number' ? v : (num d)`. -/
def numOr (v : Option Json) (d : Int) : Json :=
  match v with
  | some (.num n) => .num n
  | _ => .num d

/-- `typeof v === 'number' ? v : null`. -/
def numOrNull (v : Option Json) : Json :=
  match v with
  | some (.num n) => .num n
  | _ => .null

/-- `Array.isArray(v) ? v : []`. -/
def arrOr (v : Option Json) : List Json :=
  match v with
  | some (.arr xs) => xs
  | _ => []

/-- `typeof v === 'string' ? v : null`. -/
def strOrNull (v : Option Json) : Json :=
  match v with
  | some (.str s) => .str s
  | _ => .null

/-- `!!v` for a possibly-undefined value. -/
def jsBool (v : Option Json) : Bool :=
  match v with
  | some x => jsTruthy x
  | none => false

/-! ## JS string helpers

The JS string operations used by the pipeline, modelled over `List Char`
(ASCII behaviour; the inputs of the claims are ASCII). -/

/-- JS `\s` (ASCII members). -/
def isJsWs (c : Char) : Bool :=
  c = ' ' || c = '\t' || c = '\n' || c = '\r' || c = '\x0b' || c = '\x0c'

/-- JS `\w`: `[A-Za-z0-9_]`. -/
def isWordChar (c : Char) : Bool :=
  ('a' ≤ c && c ≤ 'z') || ('A' ≤ c && c ≤ 'Z') || ('0' ≤ c && c ≤ '9') || c = '_'

def isDigitChar (c : Char) : Bool :=
  '0' ≤ c && c ≤ '9'

/-- ASCII lower-casing, as `String.prototype.toLowerCase` acts on ASCII. -/
def lowerChar (c : Char) : Char :=
  if 'A' ≤ c && c ≤ 'Z' then Char.ofNat (c.toNat + 32) else c

def lowerList (cs : List Char) : List Char := cs.map lowerChar

def jsToLower (s : String) : String := String.mk (lowerList s.data)

/-- `String.prototype.trim` (ASCII whitespace). -/
def jsTrimList (cs : List Char) : List Char :=
  ((cs.dropWhile isJsWs).reverse.dropWhile isJsWs).reverse

def jsTrim (s : String) : String := String.mk (jsTrimList s.data)

/-- `a.includes(b)`: `b` occurs as a contiguous substring of `a`. -/
def listContainsSub (a b : List Char) : Bool :=
  (List.range (a.length + 1)).any (fun i => b.isPrefixOf (a.drop i))

def strIncludes (a b : String) : Bool := listContainsSub a.data b.data

/-! ## Dice engine (`src/engine/dice.js`) -/

/-- `rollDie`'s arithmetic on one 32-bit word from `crypto.getRandomValues`:
`(array[0] % sides) + 1`. -/
def rollDieWord (sides word : Nat) : Nat := word % sides + 1

/-- The ambient random sources, threaded explicitly: `words` is the stream of
`crypto.getRandomValues` 32-bit words with `k` the next index; `rand3` the
stream of `Math.floor(Math.random() * 3)` draws (used when an NPC roll
carries no modifier) with `j` the next index. -/
structure RandState where
  words : Nat → Nat
  k : Nat
  rand3 : Nat → Nat
  j : Nat

/-- `rollDie(sides)`: draw the next 32-bit word and reduce it mod `sides`. -/
def rollDie (sides : Nat) (st : RandState) : Nat × RandState :=
  (rollDieWord sides (st.words st.k % 2 ^ 32), { st with k := st.k + 1 })

/-- `rollDice(count, sides)`: `count` sequential draws. -/
def rollDice (count sides : Nat) (st : RandState) : List Nat × RandState :=
  match count with
  | 0 => ([], st)
  | c + 1 =>
    let (r, st1) := rollDie sides st
    let (rs, st2) := rollDice c sides st1
    (r :: rs, st2)

/-- The detailed roll record `rollWithModifier` returns. The source's `id`
and `timestamp` fields (wall-clock / counter values) are omitted; the source
field `notation` is `notationStr` here, and `dice: {count, sides}` is
flattened to `diceCount` / `diceSides`. `advantageDetail` is the extra field
`rollWithAdvantage` writes onto the record (absent = `""`). -/
structure DiceRollResult where
  notationStr : String
  diceCount : Nat
  diceSides : Nat
  rolls : List Nat
  subtotal : Int
  modifier : Int
  total : Int
  description : String
  isCritical : Bool
  isCritFail : Bool
  advantageDetail : String := ""
  deriving Repr, DecidableEq, Inhabited

/-- How JS renders the modifier in `${count}d${sides}${modifier >= 0 ? '+' +
modifier : modifier}`. -/
def fmtSignedMod (m : Int) : String :=
  if m ≥ 0 then "+" ++ toString m else toString m

/-- `rollWithModifier(count, sides, modifier, description)`. -/
def rollWithModifier (count sides : Nat) (modifier : Int) (description : String)
    (st : RandState) : DiceRollResult × RandState :=
  let (rolls, st1) := rollDice count sides st
  let subtotal : Int := Int.ofNat rolls.sum
  ({ notationStr := s!"{count}d{sides}" ++ fmtSignedMod modifier,
     diceCount := count, diceSides := sides, rolls := rolls,
     subtotal := subtotal, modifier := modifier, total := subtotal + modifier,
     description := description,
     isCritical := sides == 20 && count == 1 && rolls.headD 0 == 20,
     isCritFail := sides == 20 && count == 1 && rolls.headD 0 == 1 }, st1)

/-- Digits to the number `parseInt` reads from them. -/
def digitsToNat (cs : List Char) : Nat :=
  cs.foldl (fun a c => a * 10 + (c.toNat - '0'.toNat)) 0

/-- `parseNotation(str)`: the regex `^(\d+)d(\d+)([+-]\d+)?$` applied to the
input with whitespace removed and lower-cased; a non-match throws the
descriptive error. -/
def parseNotation (s : String) : Except String (Nat × Nat × Int) :=
  let cs := lowerList (s.data.filter (fun c => !isJsWs c))
  let err : Except String (Nat × Nat × Int) :=
    .error ("Invalid dice notation: \"" ++ s ++ "\"")
  let ds1 := cs.takeWhile isDigitChar
  if ds1.isEmpty then err else
  match cs.dropWhile isDigitChar with
  | 'd' :: rest2 =>
    let ds2 := rest2.takeWhile isDigitChar
    if ds2.isEmpty then err else
    match rest2.dropWhile isDigitChar with
    | [] => .ok (digitsToNat ds1, digitsToNat ds2, 0)
    | c :: rest4 =>
      if (c = '+' || c = '-') && !rest4.isEmpty && rest4.all isDigitChar then
        .ok (digitsToNat ds1, digitsToNat ds2,
          if c = '-' then -(Int.ofNat (digitsToNat rest4)) else Int.ofNat (digitsToNat rest4))
      else err
  | _ => err

/-- `rollNotation(notation, description)`: parse, then roll; the parse error
propagates (callers catch it). -/
def rollNotation (ns : String) (description : String) (st : RandState) :
    Except String (DiceRollResult × RandState) :=
  match parseNotation ns with
  | .error e => .error e
  | .ok (count, sides, modifier) => .ok (rollWithModifier count sides modifier description st)

/-! ## Rules lookup (`src/engine/rules.js`) -/

/-- `getModifier(score) = Math.floor((score - 10) / 2)`. -/
def getModifier (score : Int) : Int := Int.fdiv (score - 10) 2

/-- `getProficiencyBonus(level)`. -/
def getProficiencyBonus (level : Int) : Int :=
  if level ≤ 4 then 2
  else if level ≤ 8 then 3
  else if level ≤ 12 then 4
  else if level ≤ 16 then 5
  else 6

/-- The skill → ability mapping table (camelCase keys, as in the source). -/
def SKILL_ABILITIES : List (String × String) :=
  [("acrobatics", "dexterity"), ("animalHandling", "wisdom"),
   ("arcana", "intelligence"), ("athletics", "strength"),
   ("deception", "charisma"), ("history", "intelligence"),
   ("insight", "wisdom"), ("intimidation", "charisma"),
   ("investigation", "intelligence"), ("medicine", "wisdom"),
   ("nature", "intelligence"), ("perception", "wisdom"),
   ("performance", "charisma"), ("persuasion", "charisma"),
   ("religion", "intelligence"), ("sleightOfHand", "dexterity"),
   ("stealth", "dexterity"), ("survival", "wisdom")]

/-- `character.abilityScores`: the six scores, always present on a character
built by the character utilities. -/
structure AbilityScores where
  strength : Int
  dexterity : Int
  constitution : Int
  intelligence : Int
  wisdom : Int
  charisma : Int
  deriving Repr, DecidableEq

/-- `abilityScores[name]` for the six ability names (the resolver only looks
up names from `SKILL_ABILITIES` values or `ABILITY_NAMES`). -/
def AbilityScores.get (a : AbilityScores) : String → Int
  | "strength" => a.strength
  | "dexterity" => a.dexterity
  | "constitution" => a.constitution
  | "intelligence" => a.intelligence
  | "wisdom" => a.wisdom
  | "charisma" => a.charisma
  | _ => 0

/-- The slice of character state the resolver reads. `armorClass` is `none`
when the property is absent. -/
structure Character where
  armorClass : Option Int
  abilityScores : AbilityScores
  level : Int
  skillProficiencies : List String
  deriving Repr, DecidableEq

/-- `getSkillModifier(character, skill)`. -/
def getSkillModifier (c : Character) (skill : String) : Int :=
  match SKILL_ABILITIES.lookup skill with
  | none => 0
  | some ability =>
    getModifier (c.abilityScores.get ability) +
      (if c.skillProficiencies.contains skill then getProficiencyBonus c.level else 0)

/-! ## Roll resolver (`src/engine/rollResolver.js`) -/

/-- A roll request as the resolver consumes it (the output schema of
`normalizeEvents`): `none` models an absent or `null` field. The source
field `notation` is `notationStr` here. -/
structure RollReq where
  type : Option String := none
  skill : Option String := none
  ability : Option String := none
  dc : Option Int := none
  description : Option String := none
  attacker : Option String := none
  modifier : Option Int := none
  notationStr : Option String := none
  advantage : Bool := false
  disadvantage : Bool := false
  deriving Repr, DecidableEq, Inhabited

/-- JS truthiness of a possibly-absent string field. -/
def strTruthy : Option String → Bool
  | some s => s != ""
  | none => false

/-- `v || d` on a string field. -/
def orStr (v : Option String) (d : String) : String :=
  match v with
  | some s => if s = "" then d else s
  | none => d

/-- `v || d` on a numeric field (`0` is falsy). -/
def orInt (v : Option Int) (d : Int) : Int :=
  match v with
  | some n => if n = 0 then d else n
  | none => d

/-- How a possibly-undefined number renders in a JS template literal. -/
def showOptInt : Option Int → String
  | some n => toString n
  | none => "undefined"

/-- How a possibly-undefined string renders in a JS template literal. -/
def jsShowStr : Option String → String
  | some s => s
  | none => "undefined"

/-- A dispatched game-state command: the resolver only dispatches
`ADD_ROLL` records and `ADD_MESSAGE` entries (role, content, hidden). -/
inductive Action where
  | addRoll (r : DiceRollResult)
  | addMessage (role : String) (content : String) (hidden : Bool)
  deriving Repr, DecidableEq

def Action.isAddRoll : Action → Bool
  | .addRoll _ => true
  | _ => false

def Action.isHiddenMsg : Action → Bool
  | .addMessage _ _ h => h
  | _ => false

/-- One entry of the resolver's `rollResults`. `dc` is `some` for NPC rolls
(the computed target) and the raw request `dc` for player rolls; `success`
is `true` for damage rolls. -/
structure RollOutcome where
  type : Option String
  skill : Option String := none
  attacker : Option String := none
  dc : Option Int := none
  notationStr : Option String := none
  rolled : Int
  success : Bool
  description : Option String := none
  deriving Repr, DecidableEq

/-- `formatRollSummary(rollResults)`. -/
def formatRollSummary (rs : List RollOutcome) : String :=
  String.intercalate "\n" (rs.map fun r =>
    if r.type = some "npc_attack" || r.type = some "npc_save" then
      "[ROLL RESULT: " ++ orStr r.description (jsShowStr r.attacker ++ " attack") ++
        ", vs AC " ++ showOptInt r.dc ++ ", rolled " ++ toString r.rolled ++ " — " ++
        (if r.success then "HIT" else "MISS") ++ "]"
    else if r.type = some "damage_roll" then
      "[ROLL RESULT: " ++ orStr r.description "Damage roll" ++ ", " ++
        jsShowStr r.notationStr ++ ", total damage: " ++ toString r.rolled ++ "]"
    else
      "[ROLL RESULT: " ++ orStr r.description (jsShowStr r.skill ++ " check") ++
        ", DC " ++ showOptInt r.dc ++ ", rolled " ++ toString r.rolled ++ " — " ++
        (if r.success then "SUCCESS" else "FAILURE") ++ "]")

/-- `rollWithAdvantage(count, sides, modifier, description, advantage,
disadvantage)`: duplicate the draw and keep one only for exactly `1d20`. -/
def rollWithAdvantage (count sides : Nat) (modifier : Int) (description : String)
    (advantage disadvantage : Bool) (st : RandState) : DiceRollResult × RandState :=
  if (advantage || disadvantage) && count == 1 && sides == 20 then
    let (r1, st1) := rollWithModifier 1 20 modifier description st
    let (r2, st2) := rollWithModifier 1 20 modifier description st1
    let useFirst := if advantage then r1.rolls.headD 0 ≥ r2.rolls.headD 0
                    else r1.rolls.headD 0 ≤ r2.rolls.headD 0
    let kept := if useFirst then r1 else r2
    let d1 := r1.rolls.headD 0
    let d2 := r2.rolls.headD 0
    let dk := kept.rolls.headD 0
    ({ kept with advantageDetail := s!" (d20: {d1}, {d2} → kept {dk})" }, st2)
  else
    let (result, st1) := rollWithModifier count sides modifier description st
    ({ result with advantageDetail := "" }, st1)

/-- `resolveNpcRoll(roll, character, dispatch)`; the dispatched actions are
returned in order. -/
def resolveNpcRoll (roll : RollReq) (character : Option Character) (st : RandState) :
    RollOutcome × List Action × RandState :=
  let npcModSt : Int × RandState := match roll.modifier with
    | some m => (m, st)
    | none => (Int.ofNat (st.rand3 st.j % 3) + 2, { st with j := st.j + 1 })
  let npcMod := npcModSt.1
  let desc := orStr roll.description (orStr roll.attacker "Enemy" ++ " attack")
  let resultSt := rollWithAdvantage 1 20 npcMod desc roll.advantage roll.disadvantage npcModSt.2
  let result := resultSt.1
  let st := resultSt.2
  let dc := orInt (character.bind (·.armorClass)) (orInt roll.dc 12)
  let success := decide (result.total ≥ dc)
  let label := match roll.attacker with
    | some a => if a = "" then "NPC attack" else a ++ "'s attack"
    | none => "NPC attack"
  let advLabel := if roll.advantage then " *(advantage)*"
                  else if roll.disadvantage then " *(disadvantage)*" else ""
  let rollMsg := "🎲 **" ++ orStr roll.description label ++ "**" ++ advLabel ++
    " (vs AC " ++ toString dc ++ "): Rolled **" ++ toString result.total ++ "**" ++
    result.advantageDetail ++ " — " ++
    (if success then "💥 **Hit!**" else "🛡️ **Miss!**") ++
    (if result.isCritical then " 🌟 Natural 20!" else "") ++
    (if result.isCritFail then " 💀 Natural 1!" else "")
  ({ type := roll.type, attacker := some (orStr roll.attacker "Enemy"), dc := some dc,
     rolled := result.total, success := success, description := roll.description },
   [.addRoll result, .addMessage "system" rollMsg false], st)

/-- `resolveDamageRoll(roll, dispatch)`: a malformed notation throws inside
the `try` (before any dispatch) and the roll is dropped (`none`). -/
def resolveDamageRoll (roll : RollReq) (st : RandState) :
    Option RollOutcome × List Action × RandState :=
  match rollNotation (orStr roll.notationStr "1d4") (orStr roll.description "Damage Roll") st with
  | .error _ => (none, [], st)
  | .ok (result, st1) =>
    let diceStr := String.intercalate ", " (result.rolls.map toString)
    let modPart := if result.modifier != 0 then
        ", modifier: " ++ (if result.modifier ≥ 0 then "+" else "") ++ toString result.modifier
      else ""
    let rollMsg := "🎲 **" ++ result.description ++ "** (" ++ jsShowStr roll.notationStr ++
      "): Rolled **" ++ toString result.total ++ "** (dice: " ++ diceStr ++ modPart ++ ")"
    (some { type := some "damage_roll", notationStr := roll.notationStr,
            rolled := result.total, success := true,
            description := some result.description },
     [.addRoll result, .addMessage "system" rollMsg false], st1)

/-- `ABILITY_NAMES` of the resolver. -/
def ABILITY_NAMES : List String :=
  ["strength", "dexterity", "constitution", "intelligence", "wisdom", "charisma"]

/-- `resolvePlayerRoll(roll, character, dispatch)`; call sites guarantee a
truthy `skill` and a non-null character. -/
def resolvePlayerRoll (roll : RollReq) (character : Character) (st : RandState) :
    RollOutcome × List Action × RandState :=
  let skillName := jsToLower (roll.skill.getD "")
  let ability := SKILL_ABILITIES.lookup skillName
  let isAbilityName := ABILITY_NAMES.contains skillName
  let isAttackRoll := roll.type = some "attack_roll"
  let defaultLabel := orStr roll.description (skillName ++ " check")
  let modLabel : Int × String :=
    if ability.isSome then
      (getSkillModifier character skillName, defaultLabel)
    else if isAbilityName then
      let abilityMod := getModifier (character.abilityScores.get skillName)
      if isAttackRoll then
        (abilityMod + getProficiencyBonus character.level,
         orStr roll.description (skillName ++ " attack"))
      else (abilityMod, defaultLabel)
    else if skillName = "attack" then
      (max (getModifier character.abilityScores.strength)
           (getModifier character.abilityScores.dexterity)
         + getProficiencyBonus character.level,
       orStr roll.description "Attack roll")
    else (0, defaultLabel)
  let mod := modLabel.1
  let label := modLabel.2
  let (result, st1) := rollWithAdvantage 1 20 mod label roll.advantage roll.disadvantage st
  let success := decide (result.total ≥ orInt roll.dc 15)
  let advLabel := if roll.advantage then " *(advantage)*"
                  else if roll.disadvantage then " *(disadvantage)*" else ""
  let rollMsg := "🎲 **" ++ label ++ "**" ++ advLabel ++ " (DC " ++ showOptInt roll.dc ++
    "): Rolled **" ++ toString result.total ++ "**" ++ result.advantageDetail ++ " — " ++
    (if success then "✅ **Success!**" else "❌ **Failure!**") ++
    (if result.isCritical then " 🌟 Natural 20!" else "") ++
    (if result.isCritFail then " 💀 Natural 1!" else "")
  ({ type := some (orStr roll.type "skill_check"), skill := roll.skill, dc := roll.dc,
     rolled := result.total, success := success, description := roll.description },
   [.addRoll result, .addMessage "system" rollMsg false], st1)

/-- `resolveRolls(requestedRolls, character, dispatch)`: dispatch each
request to its strategy, in order; unresolvable requests are skipped. -/
def resolveRolls (requestedRolls : List RollReq) (character : Option Character)
    (st : RandState) : List RollOutcome × List Action × RandState :=
  match requestedRolls with
  | [] => ([], [], st)
  | roll :: rest =>
    let step : List RollOutcome × List Action × RandState :=
      if roll.type = some "npc_attack" || roll.type = some "npc_save" then
        let x := resolveNpcRoll roll character st
        ([x.1], x.2.1, x.2.2)
      else if roll.type = some "damage_roll" then
        let x := resolveDamageRoll roll st
        (x.1.toList, x.2.1, x.2.2)
      else if strTruthy roll.skill then
        match character with
        | some c =>
          let x := resolvePlayerRoll roll c st
          ([x.1], x.2.1, x.2.2)
        | none => ([], [], st)
      else ([], [], st)
    let next := resolveRolls rest character step.2.2
    (step.1 ++ next.1, step.2.1 ++ next.2.1, next.2.2)

/-! ## The conversation loop (`handleRequestedRolls`) -/

def MAX_ROLL_DEPTH : Nat := 3

/-- The context `{getState, dispatch, sendToLLM, preNarrated}`: `character`
is the character snapshot `getState()` returns (the loop's own dispatches —
`ADD_ROLL`, `ADD_MESSAGE` — never change it); `sendToLLM` takes the index of
the transport call and the prompt, and returns either the parsed follow-up
events' `requestedRolls` (or `none` when the response carries no rolls) or a
transport failure. -/
structure LLMEnv where
  character : Option Character
  sendToLLM : Nat → String → Except String (Option (List RollReq))
  preNarrated : Bool := false

/-- The loop's mutable surroundings: random sources, the count of transport
calls made, and the trace of dispatched actions in order. -/
structure LoopState where
  rand : RandState
  calls : Nat
  trace : List Action

/-- The depth-guard notice dispatched when the chain is cut off. -/
def chainLimitMsg : Action :=
  .addMessage "system" ("⚠️ Roll chain limit reached (" ++ toString MAX_ROLL_DEPTH ++
    " levels). The DM will continue from here on your next message.") false

/-- The instruction block wrapped around the roll summary for the follow-up
call. -/
def followUpInstr : String :=
  "[SYSTEM: Dice rolled. Results below. RULES: (1) Narrate the outcome based EXACTLY on these results — do not override, soften, or ignore them. A roll of 3 vs DC 15 is a failure, narrate it as such. (2) Do NOT re-request the same rolls. (3) If an attack hit, request a damage roll via JSON before narrating the damage amount. (4) If enemies or NPCs retaliate or act, request their attack/action rolls via JSON. (5) Never narrate NPC or enemy outcomes without rolling first.]"

/-- The correction clause prepended at depth 0 after a pre-narrated outcome. -/
def correctionNoteText : String :=
  "\n\n[IMPORTANT: Your previous response pre-narrated an outcome before seeing these dice results. The roll result above is the authoritative truth. Narrate the TRUE outcome based solely on these dice — completely discard any outcome you wrote before seeing the roll.]"

/-- The body of `handleRequestedRolls` with an explicit structural `fuel`,
kept equal to `MAX_ROLL_DEPTH - depth` by the call sites so that the
`fuel = 0` fallback is reached exactly when the depth guard fires; the fuel
only makes the depth-bounded recursion structurally recursive (so that it
evaluates), it adds no behaviour. The result is `.ok` when the returned
promise resolves and `.error` when it would reject: the `try`/`catch` around
the follow-up transport call (and around the recursive call, which itself
always resolves) means a transport failure is caught and only logged. -/
def handleGo (fuel : Nat) (requestedRolls : List RollReq) (env : LLMEnv)
    (depth : Nat) (st : LoopState) : Except String LoopState :=
  if MAX_ROLL_DEPTH ≤ depth then
    .ok { st with trace := st.trace ++ [chainLimitMsg] }
  else
    match fuel with
    | 0 => .ok { st with trace := st.trace ++ [chainLimitMsg] }
    | fuel' + 1 =>
      let (rollResults, acts, rand1) := resolveRolls requestedRolls env.character st.rand
      let st1 : LoopState := { st with rand := rand1, trace := st.trace ++ acts }
      if rollResults.length > 0 then
        let summary := formatRollSummary rollResults
        let st2 := { st1 with trace := st1.trace ++ [Action.addMessage "system" summary true] }
        let correctionNote := if depth = 0 && env.preNarrated then correctionNoteText else ""
        match env.sendToLLM st2.calls (followUpInstr ++ correctionNote ++ "\n\n" ++ summary) with
        | .error _ => .ok { st2 with calls := st2.calls + 1 }
        | .ok followUp =>
          let st3 := { st2 with calls := st2.calls + 1 }
          match followUp with
          | some rolls =>
            if rolls.length > 0 then
              handleGo fuel' rolls { env with preNarrated := false } (depth + 1) st3
            else .ok st3
          | none => .ok st3
      else .ok st1

/-- `handleRequestedRolls(requestedRolls, {getState, dispatch, sendToLLM,
preNarrated}, depth)`. -/
def handleRequestedRolls (requestedRolls : List RollReq) (env : LLMEnv)
    (depth : Nat) (st : LoopState) : Except String LoopState :=
  handleGo (MAX_ROLL_DEPTH - depth) requestedRolls env depth st

/-! ## A model of `JSON.parse`

`JSON.parse` is a host builtin, not repository code. It is modelled by an
executable recursive-descent parser on the integer-number fragment of JSON
(fractional and exponent forms are rejected; no claim touches them). The
`fuel` argument only makes the descent structurally recursive; the top-level
entry supplies more than enough for any input. -/

/-- JSON's insignificant whitespace (space, tab, line feed, carriage return). -/
def isJsonWs (c : Char) : Bool :=
  c = ' ' || c = '\t' || c = '\n' || c = '\r'

def hexVal (c : Char) : Option Nat :=
  let n := c.toNat
  if 48 ≤ n ∧ n ≤ 57 then some (n - 48)
  else if 97 ≤ n ∧ n ≤ 102 then some (n - 87)
  else if 65 ≤ n ∧ n ≤ 70 then some (n - 55)
  else none

/-- The body of a JSON string literal after the opening quote. -/
def parseJsonStringBody : List Char → List Char → Except String (String × List Char)
  | acc, '"' :: rest => .ok (String.mk acc.reverse, rest)
  | acc, '\\' :: e :: rest =>
    match e with
    | '"' => parseJsonStringBody ('"' :: acc) rest
    | '\\' => parseJsonStringBody ('\\' :: acc) rest
    | '/' => parseJsonStringBody ('/' :: acc) rest
    | 'b' => parseJsonStringBody ('\x08' :: acc) rest
    | 'f' => parseJsonStringBody ('\x0c' :: acc) rest
    | 'n' => parseJsonStringBody ('\n' :: acc) rest
    | 'r' => parseJsonStringBody ('\r' :: acc) rest
    | 't' => parseJsonStringBody ('\t' :: acc) rest
    | 'u' =>
      match rest with
      | h1 :: h2 :: h3 :: h4 :: rest2 =>
        match hexVal h1, hexVal h2, hexVal h3, hexVal h4 with
        | some a, some b, some c, some d =>
          let n := ((a * 16 + b) * 16 + c) * 16 + d
          if h : n.isValidChar then parseJsonStringBody (Char.ofNatAux n h :: acc) rest2
          else .error "JSON.parse: bad escape"
        | _, _, _, _ => .error "JSON.parse: bad escape"
      | _ => .error "JSON.parse: bad escape"
    | _ => .error "JSON.parse: bad escape"
  | acc, c :: rest =>
    if c.toNat < 32 then .error "JSON.parse: control character in string"
    else parseJsonStringBody (c :: acc) rest
  | _, [] => .error "JSON.parse: unterminated string"

/-- A JSON number (integer fragment: optional minus, digits, no leading
zero, no fraction or exponent). -/
def parseJsonNumber (cs : List Char) : Except String (Json × List Char) :=
  let (neg, cs1) := match cs with
    | '-' :: r => (true, r)
    | _ => (false, cs)
  let ds := cs1.takeWhile isDigitChar
  let rest := cs1.dropWhile isDigitChar
  if ds.isEmpty then .error "JSON.parse: unexpected token"
  else if ds.length > 1 && ds.headD '0' = '0' then .error "JSON.parse: leading zero"
  else
    match rest with
    | '.' :: _ => .error "JSON.parse: non-integer number"
    | 'e' :: _ => .error "JSON.parse: non-integer number"
    | 'E' :: _ => .error "JSON.parse: non-integer number"
    | _ =>
      let n : Int := Int.ofNat (digitsToNat ds)
      .ok (.num (if neg then -n else n), rest)

mutual

def parseJsonValue : Nat → List Char → Except String (Json × List Char)
  | 0, _ => .error "JSON.parse: out of fuel"
  | fuel + 1, cs =>
    match cs.dropWhile isJsonWs with
    | 'n' :: 'u' :: 'l' :: 'l' :: rest => .ok (.null, rest)
    | 't' :: 'r' :: 'u' :: 'e' :: rest => .ok (.bool true, rest)
    | 'f' :: 'a' :: 'l' :: 's' :: 'e' :: rest => .ok (.bool false, rest)
    | '"' :: rest => (parseJsonStringBody [] rest).map fun (s, r) => (.str s, r)
    | '[' :: rest =>
      match rest.dropWhile isJsonWs with
      | ']' :: rest2 => .ok (.arr [], rest2)
      | _ => (parseJsonItems fuel rest).map fun (xs, r) => (.arr xs, r)
    | '{' :: rest =>
      match rest.dropWhile isJsonWs with
      | '}' :: rest2 => .ok (.obj [], rest2)
      | _ => (parseJsonFields fuel rest).map fun (kvs, r) => (.obj kvs, r)
    | other => parseJsonNumber other

def parseJsonItems : Nat → List Char → Except String (List Json × List Char)
  | 0, _ => .error "JSON.parse: out of fuel"
  | fuel + 1, cs =>
    match parseJsonValue fuel cs with
    | .error e => .error e
    | .ok (v, rest) =>
      match rest.dropWhile isJsonWs with
      | ',' :: rest2 => (parseJsonItems fuel rest2).map fun (xs, r) => (v :: xs, r)
      | ']' :: rest2 => .ok ([v], rest2)
      | _ => .error "JSON.parse: expected , or ] in array"

def parseJsonFields : Nat → List Char → Except String (List (String × Json) × List Char)
  | 0, _ => .error "JSON.parse: out of fuel"
  | fuel + 1, cs =>
    match cs.dropWhile isJsonWs with
    | '"' :: rest =>
      match parseJsonStringBody [] rest with
      | .error e => .error e
      | .ok (key, rest1) =>
        match rest1.dropWhile isJsonWs with
        | ':' :: rest2 =>
          match parseJsonValue fuel rest2 with
          | .error e => .error e
          | .ok (v, rest3) =>
            match rest3.dropWhile isJsonWs with
            | ',' :: rest4 => (parseJsonFields fuel rest4).map fun (kvs, r) => ((key, v) :: kvs, r)
            | '}' :: rest4 => .ok ([(key, v)], rest4)
            | _ => .error "JSON.parse: expected , or \x7d in object"
        | _ => .error "JSON.parse: expected : in object"
    | _ => .error "JSON.parse: expected key string in object"

end

/-- The model of `JSON.parse`: parse one value and require only whitespace
after it. -/
def jsonParse (s : String) : Except String Json :=
  match parseJsonValue (2 * s.length + 4) s.data with
  | .error e => .error e
  | .ok (v, rest) =>
    if (rest.dropWhile isJsonWs).isEmpty then .ok v
    else .error "JSON.parse: unexpected trailing characters"

/-! ## `repairJson` (`src/llm/responseParser.js`) -/

/-- The closer of a `,\s*([\}\]])` match starting at the character after the
comma, with what follows it. -/
def commaCloser (cs : List Char) : Option (Char × List Char) :=
  match cs.dropWhile isJsWs with
  | c :: rest => if c = '}' || c = ']' then some (c, rest) else none
  | [] => none

/-- `str.replace(/,\s*([\}\]])/g, '$1')`: each comma directly before a
closer (whitespace allowed) is dropped, left to right, scanning resuming
after the closer. Fuel = input length (every step consumes a character). -/
def stripTrailingCommasGo : Nat → List Char → List Char
  | 0, cs => cs
  | _ + 1, [] => []
  | fuel + 1, c :: rest =>
    if c = ',' then
      match commaCloser rest with
      | some (cl, rest2) => cl :: stripTrailingCommasGo fuel rest2
      | none => ',' :: stripTrailingCommasGo fuel rest
    else c :: stripTrailingCommasGo fuel rest

def stripTrailingCommas (cs : List Char) : List Char :=
  stripTrailingCommasGo cs.length cs

/-- `repairJson(str)`: strip trailing commas, then append the missing `]`s
and after them the missing `}`s, counted independently. -/
def repairJson (s : String) : String :=
  let repaired := stripTrailingCommas s.data
  String.mk (repaired
    ++ List.replicate (repaired.count '[' - repaired.count ']') ']'
    ++ List.replicate (repaired.count '{' - repaired.count '}') '}')

/-! ## Locating JSON in a response (`parseResponse`'s regexes) -/

/-- Whether the closing `\n?\s*` + three-backtick fence of
`/```json\s*\n?([\s\S]*?)\n?\s*```/` matches at this position (the optional
newline is subsumed by `\s*`). -/
def closingFenceAt (cs : List Char) : Bool :=
  "```".data.isPrefixOf (cs.dropWhile isJsWs)

/-- The lazy capture `([\s\S]*?)`: the shortest prefix after which the
closing fence matches; `none` when no closing fence follows at all. -/
def fencedBody : List Char → Option (List Char)
  | [] => if closingFenceAt [] then some [] else none
  | c :: rest =>
    if closingFenceAt (c :: rest) then some []
    else (fencedBody rest).map (c :: ·)

/-- `/```json\s*\n?([\s\S]*?)\n?\s*```/` applied to the response: JS tries
each start position left to right; a match starts at the literal
"```json", skips the maximal whitespace run (greedy `\s*\n?`), and captures
lazily up to the first closing fence. Returns (text before the match, the
captured body). -/
def findFencedGo : List Char → List Char → Option (List Char × List Char)
  | _, [] => none
  | pre, c :: rest =>
    if "```json".data.isPrefixOf (c :: rest) then
      match fencedBody (((c :: rest).drop 7).dropWhile isJsWs) with
      | some body => some (pre.reverse, body)
      | none => findFencedGo (c :: pre) rest
    else findFencedGo (c :: pre) rest

def findFenced (s : String) : Option (String × String) :=
  (findFencedGo [] s.data).map fun (pre, body) => (String.mk pre, String.mk body)

/-- The greedy regex `/\{[\s\S]*"requested_rolls"[\s\S]*\}/`: it matches
from the leftmost `{` that is followed (strictly later) by the quoted
literal and then by a `}`, through the last `}` of the text. Returns (text
before the match, the matched substring). -/
def findLoose (cs : List Char) : Option (List Char × List Char) :=
  let lit := "\"requested_rolls\"".data
  let n := cs.length
  match ((List.range n).filter (fun i => cs.getD i ' ' = '}')).max? with
  | none => none
  | some u =>
    match ((List.range n).filter
        (fun t => lit.isPrefixOf (cs.drop t) && t + lit.length ≤ u)).max? with
    | none => none
    | some tmax =>
      match (List.range n).find? (fun i => cs.getD i ' ' = '{' && i + 1 ≤ tmax) with
      | none => none
      | some i => some (cs.take i, (cs.drop i).take (u + 1 - i))

/-! ## Text roll detection (`detectTextRollRequests`) -/

def KNOWN_SKILLS : List String :=
  ["perception", "stealth", "athletics", "acrobatics", "investigation",
   "insight", "persuasion", "deception", "intimidation", "sleight of hand",
   "arcana", "history", "nature", "religion", "medicine", "survival",
   "animal handling", "performance", "thieves tools", "thieves' tools",
   "strength", "dexterity", "constitution", "intelligence", "wisdom", "charisma",
   "attack", "initiative"]

/-- `/\bdc\s*(\d+)\b/` attempted at one position of the lower-cased text
(`prev` is the preceding character, for the leading word boundary; the
trailing boundary requires a non-word character or the end after the
maximal digit run). -/
def dcMatchAt (prev : Option Char) (cs : List Char) : Option Nat :=
  if (match prev with | some p => isWordChar p | none => false) then none
  else
    match cs with
    | 'd' :: 'c' :: rest =>
      let rest1 := rest.dropWhile isJsWs
      let ds := rest1.takeWhile isDigitChar
      if ds.isEmpty then none
      else
        match rest1.dropWhile isDigitChar with
        | c :: _ => if isWordChar c then none else some (digitsToNat ds)
        | [] => some (digitsToNat ds)
    | _ => none

/-- `/\bdc\s*(\d+)\b/` scanned left to right. -/
def scanDc1 : Option Char → List Char → Option Nat
  | prev, [] => dcMatchAt prev []
  | prev, c :: rest =>
    match dcMatchAt prev (c :: rest) with
    | some d => some d
    | none => scanDc1 (some c) rest

/-- `/difficulty class\s*(\d+)/` scanned left to right (no boundaries). -/
def scanDc2 : List Char → Option Nat
  | [] => none
  | c :: rest =>
    match
      (if "difficulty class".data.isPrefixOf (c :: rest) then
        let rest1 := ((c :: rest).drop 16).dropWhile isJsWs
        let ds := rest1.takeWhile isDigitChar
        if ds.isEmpty then none else some (digitsToNat ds)
      else none) with
    | some d => some d
    | none => scanDc2 rest

/-- Case-insensitive literal prefix match (the pattern is lower case);
returns the remainder. -/
def ciPrefix : List Char → List Char → Option (List Char)
  | [], cs => some cs
  | _ :: _, [] => none
  | p :: ps, c :: cs => if lowerChar c = p then ciPrefix ps cs else none

/-- The `\s+(?:check|save|saving throw)` tail shared by both detector
patterns: maximal whitespace run (at least one), then the first alternative
that matches, in source order. Returns the number of characters consumed. -/
def p1Tail (cs : List Char) : Option Nat :=
  let ws := cs.takeWhile isJsWs
  if ws.isEmpty then none
  else
    let rest := cs.drop ws.length
    if (ciPrefix "check".data rest).isSome then some (ws.length + 5)
    else if (ciPrefix "save".data rest).isSome then some (ws.length + 4)
    else if (ciPrefix "saving throw".data rest).isSome then some (ws.length + 12)
    else none

/-- The lazy group `([\w\s']+?)` with its tail: grow the group one character
at a time (its characters must stay in the class), trying the tail at each
length. Returns (group, characters consumed by group plus tail). -/
def p1Group : List Char → Option (List Char × Nat)
  | [] => none
  | c :: rest =>
    if isWordChar c || isJsWs c || c = '\'' then
      match p1Tail rest with
      | some n => some ([c], 1 + n)
      | none => (p1Group rest).map fun (g, m) => (c :: g, m + 1)
    else none

/-- The primary pattern
`/(?:roll|make|attempt)\s+(?:a|an)\s+([\w\s']+?)\s+(?:check|save|saving throw)/i`
attempted at one position: returns (length of the whole match, the captured
group). The article backtracks from `a` to `an` when the rest fails. -/
def p1MatchAt (cs : List Char) : Option (Nat × List Char) :=
  let verb : Option Nat :=
    if (ciPrefix "roll".data cs).isSome then some 4
    else if (ciPrefix "make".data cs).isSome then some 4
    else if (ciPrefix "attempt".data cs).isSome then some 7
    else none
  match verb with
  | none => none
  | some vn =>
    let afterVerb := cs.drop vn
    let ws1 := afterVerb.takeWhile isJsWs
    if ws1.isEmpty then none
    else
      let afterWs1 := afterVerb.drop ws1.length
      let tryArticle : Nat → Option (Nat × List Char) := fun alen =>
        let afterArt := afterWs1.drop alen
        let ws2 := afterArt.takeWhile isJsWs
        if ws2.isEmpty then none
        else
          match p1Group (afterArt.drop ws2.length) with
          | some (g, m) => some (vn + ws1.length + alen + ws2.length + m, g)
          | none => none
      match ciPrefix "a".data afterWs1 with
      | none => none
      | some _ =>
        match tryArticle 1 with
        | some r => some r
        | none =>
          match ciPrefix "an".data afterWs1 with
          | some _ => tryArticle 2
          | none => none

/-- The primary pattern applied globally (`g` flag): scan left to right,
resuming after each match's end. Fuel = text length (every step consumes at
least one character). -/
def p1ScanGo : Nat → List Char → List (List Char × List Char)
  | 0, _ => []
  | _ + 1, [] => []
  | fuel + 1, c :: rest =>
    match p1MatchAt (c :: rest) with
    | some (len, g) => ((c :: rest).take len, g) :: p1ScanGo fuel ((c :: rest).drop len)
    | none => p1ScanGo fuel rest

/-- Case-insensitive match of a secondary-pattern skill literal in which the
source replaced apostrophes and double quotes by `.` (any character but a
newline); returns the remainder. -/
def ciPatPrefix : List Char → List Char → Option (List Char)
  | [], cs => some cs
  | _ :: _, [] => none
  | p :: ps, c :: cs =>
    if p = '.' then (if c = '\n' then none else ciPatPrefix ps cs)
    else if lowerChar c = p then ciPatPrefix ps cs else none

/-- One position of the secondary pattern
`\b<skill>\s+(?:check|save|saving throw)` (case-insensitive): word boundary,
the skill literal, the shared tail. Returns the matched text. -/
def p2MatchAt (pat : List Char) (prev : Option Char) (cs : List Char) : Option (List Char) :=
  if (match prev with | some p => isWordChar p | none => false) then none
  else
    match ciPatPrefix pat cs with
    | none => none
    | some rest =>
      match p1Tail rest with
      | some n => some (cs.take (pat.length + n))
      | none => none

/-- The secondary pattern scanned left to right; returns the first match. -/
def p2Scan (pat : List Char) : Option Char → List Char → Option (List Char)
  | prev, [] => p2MatchAt pat prev []
  | prev, c :: rest =>
    match p2MatchAt pat prev (c :: rest) with
    | some m => some m
    | none => p2Scan pat (some c) rest

/-- The secondary pass: the first vocabulary skill whose pattern occurs in
the narrative yields exactly one roll, then the loop breaks. -/
def findP2 (skills : List String) (cs : List Char) (dc : Int) : Option Json :=
  match skills with
  | [] => none
  | skill :: rest =>
    let pat := skill.data.map fun c => if c = '\'' || c = '"' then '.' else c
    match p2Scan pat none cs with
    | some m0 =>
      let ty := if listContainsSub (lowerList m0) "save".data then "saving_throw" else "skill_check"
      some (Json.obj [("type", .str ty), ("skill", .str skill), ("dc", .num dc),
        ("description", .str (skill ++ " check (DC " ++ toString dc ++ ")"))])
    | none => findP2 rest cs dc

/-- `detectTextRollRequests(narrative)`: DC extraction, the global primary
pattern with fuzzy vocabulary matching, then the one-shot secondary pattern
when the primary found nothing. -/
def detectTextRollRequests (narrative : String) : List Json :=
  let lower := lowerList narrative.data
  let dc : Int := Int.ofNat (match scanDc1 none lower with
    | some d => d
    | none =>
      match scanDc2 lower with
      | some d => d
      | none => 15)
  let found := p1ScanGo narrative.data.length narrative.data
  let rolls := found.foldl (fun acc m =>
    let skillRaw := lowerList (jsTrimList m.2)
    match KNOWN_SKILLS.find? (fun s =>
        listContainsSub skillRaw s.data || listContainsSub s.data skillRaw) with
    | some skill =>
      let ty := if listContainsSub (lowerList m.1) "save".data then "saving_throw" else "skill_check"
      acc ++ [Json.obj [("type", .str ty), ("skill", .str skill), ("dc", .num dc),
        ("description", .str (String.mk (jsTrimList m.1)))]]
    | none => acc) []
  if rolls.isEmpty then
    match findP2 KNOWN_SKILLS narrative.data dc with
    | some roll => [roll]
    | none => []
  else rolls

/-! ## Normalization (`normalizeEvents`) and `parseResponse` -/

/-- One entry of `requested_rolls` normalized. A `null` entry makes the
first property access throw (`TypeError`). -/
def normalizeRoll (r : Json) : Except String Json :=
  match r with
  | .null => .error "TypeError"
  | _ => .ok (.obj [
      ("type", jsOr (jsGet r "type") (.str "skill_check")),
      ("skill", jsOr (jsGet r "skill") .null),
      ("ability", jsOr (jsGet r "ability") .null),
      ("dc", numOr (jsGet r "dc") 15),
      ("description", jsOr (jsGet r "description") (.str "")),
      ("attacker", jsOr (jsGet r "attacker") .null),
      ("modifier", numOrNull (jsGet r "modifier")),
      ("notation", jsOr (jsGet r "notation") .null),
      ("advantage", .bool (jsBool (jsGet r "advantage"))),
      ("disadvantage", .bool (jsBool (jsGet r "disadvantage")))])

/-- Bare-string world facts are upgraded to `{fact, category: 'general'}`. -/
def upgradeWorldFact (f : Json) : Json :=
  match f with
  | .str s => .obj [("fact", .str s), ("category", .str "general")]
  | _ => f

/-- The object `normalizeEvents` returns, given the raw value and the
already-normalized `requested_rolls` (the only part whose normalization can
throw). Keys in source order. -/
def buildEvents (raw : Json) (rolls : List Json) : Json :=
  .obj [
    ("requestedRolls", .arr rolls),
    ("damageDealt", numOr (jsGet raw "damage_dealt") 0),
    ("damageTaken", numOr (jsGet raw "damage_taken") 0),
    ("itemsFound", .arr (arrOr (jsGet raw "items_found"))),
    ("itemsLost", .arr (arrOr (jsGet raw "items_lost"))),
    ("goldFound", numOr (jsGet raw "gold_found") 0),
    ("goldLost", numOr (jsGet raw "gold_lost") 0),
    ("silverFound", numOr (jsGet raw "silver_found") 0),
    ("silverLost", numOr (jsGet raw "silver_lost") 0),
    ("copperFound", numOr (jsGet raw "copper_found") 0),
    ("copperLost", numOr (jsGet raw "copper_lost") 0),
    ("expAwarded", numOr (jsGet raw "exp_awarded") 0),
    ("restTaken", strOrNull (jsGet raw "rest_taken")),
    ("conditionsGained", .arr (arrOr (jsGet raw "conditions_gained"))),
    ("conditionsRemoved", .arr (arrOr (jsGet raw "conditions_removed"))),
    ("questUpdates", .arr (arrOr (jsGet raw "quest_updates"))),
    ("location", jsOr (jsGet raw "location") .null),
    ("healing", numOr (jsGet raw "healing") 0),
    ("combatStart", jsOr (jsGet raw "combat_start") .null),
    ("combatEnd", .bool (jsBool (jsGet raw "combat_end"))),
    ("enemyUpdates", .arr (arrOr (jsGet raw "enemy_updates"))),
    ("addCompanions", .arr (arrOr (jsGet raw "add_companions"))),
    ("updateCompanions", .arr (arrOr (jsGet raw "update_companions"))),
    ("removeCompanions", .arr (arrOr (jsGet raw "remove_companions"))),
    ("worldFacts", .arr ((arrOr (jsGet raw "world_facts")).map upgradeWorldFact)),
    ("npcUpdates", .arr (arrOr (jsGet raw "npc_updates"))),
    ("playerDeath",
      match jsGet raw "player_death" with
      | some pd =>
        if jsTruthy pd then
          .obj [("description", jsOr (jsGet pd "description") (.str "Your character has fallen."))]
        else .null
      | none => .null)]

/-- The `requested_rolls` part of normalization — the only part that can
throw on a non-null object: map `normalizeRoll` when the field is an array,
else the empty list. -/
def normalizeRollsField (raw : Json) : Except String (List Json) :=
  match jsGet raw "requested_rolls" with
  | some (.arr rs) => rs.mapM normalizeRoll
  | _ => .ok []

/-- `normalizeEvents(raw)`: a `null` argument (or a `null` element of
`requested_rolls`) throws a `TypeError` at the first property access;
everything else produces the fully-populated events object. -/
def normalizeEvents (raw : Json) : Except String Json :=
  match raw with
  | .null => .error "TypeError"
  | _ =>
    match normalizeRollsField raw with
    | .error e => .error e
    | .ok rolls => .ok (buildEvents raw rolls)

/-- `parseResponse`'s result: the narrative text and the extracted events
(`none` = JS `null`). -/
structure ParseResult where
  narrative : String
  events : Option Json
  deriving Repr, Inhabited

/-- Setting `events._textRollDetected = true`: a new key is appended in JS
property order. -/
def setTextRollFlag (v : Json) : Json :=
  match v with
  | .obj kvs => .obj (kvs ++ [("_textRollDetected", .bool true)])
  | other => other

/-- `parseResponse(response)`. The result is `.error` exactly where the JS
function throws (the `TypeError` of `normalizeEvents` applied, outside any
`try`, to a fenced body that parses to `null`); every other path returns a
`ParseResult`. -/
def parseResponse (response : String) : Except String ParseResult :=
  if response = "" then .ok ⟨"", none⟩
  else
    match findFenced response with
    | none =>
      -- Fallback 1: unfenced JSON carrying "requested_rolls"; a parse or
      -- normalization failure here is caught and falls through.
      let unfenced : Option ParseResult :=
        match findLoose response.data with
        | some (pre, matched) =>
          match jsonParse (String.mk matched) with
          | .ok parsed =>
            match normalizeEvents parsed with
            | .ok events => some ⟨jsTrim (String.mk pre), some events⟩
            | .error _ => none
          | .error _ => none
        | none => none
      match unfenced with
      | some r => .ok r
      | none =>
        -- Fallback 2: the text roll detector.
        let detected := detectTextRollRequests response
        if detected.length > 0 then
          match normalizeEvents (.obj [("requested_rolls", .arr detected)]) with
          | .ok events => .ok ⟨jsTrim response, some (setTextRollFlag events)⟩
          | .error e => .error e
        else .ok ⟨jsTrim response, none⟩
    | some (pre, body) =>
      let parsed : Except String Json :=
        match jsonParse body with
        | .ok ev => .ok ev
        | .error _ =>
          -- repair attempted exactly once
          match jsonParse (repairJson body) with
          | .ok ev => .ok ev
          | .error e => .error e
      match parsed with
      | .error _ => .ok ⟨jsTrim response, none⟩
      | .ok events0 =>
        match normalizeEvents events0 with
        | .error e => .error e
        | .ok events => .ok ⟨jsTrim pre, some events⟩

/-! ## Observations and concrete fixtures used by the theorems -/

/-- The keys of an object value. -/
def jsonKeys : Json → List String
  | .obj kvs => kvs.map Prod.fst
  | _ => []

/-- The trace of a resolved (non-rejected) loop run; `[]` for a rejection. -/
def traceOf : Except String LoopState → List Action
  | .ok t => t.trace
  | .error _ => []

/-- The snake_case input key, camelCase output key and documented default of
every `GameEvents` field, in source order. -/
def eventDefaults : List (String × String × Json) :=
  [("requested_rolls", "requestedRolls", .arr []),
   ("damage_dealt", "damageDealt", .num 0),
   ("damage_taken", "damageTaken", .num 0),
   ("items_found", "itemsFound", .arr []),
   ("items_lost", "itemsLost", .arr []),
   ("gold_found", "goldFound", .num 0),
   ("gold_lost", "goldLost", .num 0),
   ("silver_found", "silverFound", .num 0),
   ("silver_lost", "silverLost", .num 0),
   ("copper_found", "copperFound", .num 0),
   ("copper_lost", "copperLost", .num 0),
   ("exp_awarded", "expAwarded", .num 0),
   ("rest_taken", "restTaken", .null),
   ("conditions_gained", "conditionsGained", .arr []),
   ("conditions_removed", "conditionsRemoved", .arr []),
   ("quest_updates", "questUpdates", .arr []),
   ("location", "location", .null),
   ("healing", "healing", .num 0),
   ("combat_start", "combatStart", .null),
   ("combat_end", "combatEnd", .bool false),
   ("enemy_updates", "enemyUpdates", .arr []),
   ("add_companions", "addCompanions", .arr []),
   ("update_companions", "updateCompanions", .arr []),
   ("remove_companions", "removeCompanions", .arr []),
   ("world_facts", "worldFacts", .arr []),
   ("npc_updates", "npcUpdates", .arr []),
   ("player_death", "playerDeath", .null)]

/-- A raw object carrying only `damage_taken: 5` (the C4 counterexample). -/
def c4raw : Json := Json.obj [("damage_taken", Json.num 5)]

/-- The spec's seeded die sequence `[5, 17]`: words 4 and 16 produce d20
faces 5 and 17. -/
def c5MockRand : RandState :=
  { words := fun n => if n = 0 then 4 else 16, k := 0, rand3 := fun _ => 0, j := 0 }

/-- A die stream whose first word yields a d20 face of 3, for the NPC-roll
counterexample. -/
def c2Rand : RandState :=
  { words := fun _ => 2, k := 0, rand3 := fun _ => 0, j := 0 }

/-- A character whose armor class is set to `0` (falsy in JS). -/
def c2CharZeroAC : Character :=
  { armorClass := some 0, abilityScores := ⟨10, 16, 10, 10, 10, 10⟩,
    level := 3, skillProficiencies := ["stealth"] }

/-- An `npc_attack` request carrying the model-suggested `dc: 5`. -/
def c2Roll : RollReq := { type := some "npc_attack", dc := some 5, modifier := some 0 }

/-- A concrete character for the player-roll theorems. -/
def c9Char : Character :=
  { armorClass := some 14, abilityScores := ⟨15, 16, 10, 10, 12, 8⟩,
    level := 3, skillProficiencies := ["stealth"] }

/-- A request carrying only an `ability` (no `skill`): the C9 counterexample. -/
def c9AbilityOnly : RollReq := { type := some "skill_check", ability := some "dexterity" }

/-- A concrete skill-check request for the C9 witness. -/
def c9WitnessRoll : RollReq :=
  { type := some "skill_check", skill := some "Stealth", dc := some 12 }

/-- The C10 test input (no JSON block, a prose roll request). -/
def c10Input : String :=
  "You approach the door. Make a Stealth check to slip past the guards."

/-- An NPC attack request with an explicit modifier, for the loop theorems. -/
def loopNpcReq : RollReq := { type := some "npc_attack", modifier := some 2 }

/-- A mock model that answers every follow-up with one further NPC roll. -/
def alwaysRollLLM : Nat → List RollReq := fun _ => [loopNpcReq]

/-- A transport that always fails, over an otherwise fixed environment. -/
def failEnv : LLMEnv :=
  { character := none, sendToLLM := fun _ _ => .error "network error" }

/-- A deterministic random state for the loop theorems. -/
def loopRand : RandState := { words := fun _ => 7, k := 0, rand3 := fun _ => 1, j := 0 }

/-- A fresh loop state. -/
def loopSt : LoopState := { rand := loopRand, calls := 0, trace := [] }

/-! # Theorems for the claims -/

/-- C3. The claim says `parseResponse` never throws for any input; the code
violates it: a fenced block whose body is the valid JSON text `null` parses
successfully, so the repair/fallback path is skipped, and then
`normalizeEvents(null)` — which sits outside the `try` — throws a
`TypeError` reading `.requested_rolls` of `null`. This theorem evaluates the
embedding at that failing input: the result is the uncaught error, not the
degraded `{narrative, events: null}` result the claim requires. -/
theorem c3_parseResponse_throws_on_null_body :
    parseResponse "```json\nnull\n```" = .error "TypeError" := rfl

/-- C10. For the input "You approach the door. Make a Stealth check to slip
past the guards." (no JSON block), `parseResponse` returns the full trimmed
text as narrative and events whose `requestedRolls` holds exactly one entry
with `skill` "stealth", `type` "skill_check", `dc` defaulted to 15, and the
`_textRollDetected` flag set true. -/
theorem c10_text_roll_fallback :
    parseResponse c10Input = .ok
      { narrative := c10Input,
        events := some (Json.obj
          [("requestedRolls", Json.arr
              [Json.obj
                 [("type", Json.str "skill_check"),
                  ("skill", Json.str "stealth"),
                  ("ability", Json.null),
                  ("dc", Json.num 15),
                  ("description", Json.str "Make a Stealth check"),
                  ("attacker", Json.null),
                  ("modifier", Json.null),
                  ("notation", Json.null),
                  ("advantage", Json.bool false),
                  ("disadvantage", Json.bool false)]]),
           ("damageDealt", Json.num 0),
           ("damageTaken", Json.num 0),
           ("itemsFound", Json.arr []),
           ("itemsLost", Json.arr []),
           ("goldFound", Json.num 0),
           ("goldLost", Json.num 0),
           ("silverFound", Json.num 0),
           ("silverLost", Json.num 0),
           ("copperFound", Json.num 0),
           ("copperLost", Json.num 0),
           ("expAwarded", Json.num 0),
           ("restTaken", Json.null),
           ("conditionsGained", Json.arr []),
           ("conditionsRemoved", Json.arr []),
           ("questUpdates", Json.arr []),
           ("location", Json.null),
           ("healing", Json.num 0),
           ("combatStart", Json.null),
           ("combatEnd", Json.bool false),
           ("enemyUpdates", Json.arr []),
           ("addCompanions", Json.arr []),
           ("updateCompanions", Json.arr []),
           ("removeCompanions", Json.arr []),
           ("worldFacts", Json.arr []),
           ("npcUpdates", Json.arr []),
           ("playerDeath", Json.null),
           ("_textRollDetected", Json.bool true)]) } := rfl

/-- C6 (amended). `repairJson` first runs the trailing-comma pass and then
appends the missing `]`s followed by the missing `}`s, counted by raw
character occurrence. Whenever the comma pass leaves the body unchanged and
the text completed in that fixed order is JSON that parses, the repaired
body parses to the same value. (The original universal claim fails: brace
and bracket characters inside string literals count toward the totals, and
closers needed in interleaved order cannot be produced — see the
counterexample.) -/
theorem c6_repair_appends_closers (s : String) (v : Json)
    (hstrip : stripTrailingCommas s.data = s.data)
    (hparse : jsonParse (String.mk (s.data
        ++ List.replicate (s.data.count '[' - s.data.count ']') ']'
        ++ List.replicate (s.data.count '{' - s.data.count '}') '}')) = .ok v) :
    jsonParse (repairJson s) = .ok v := by
  simpa only [repairJson, hstrip] using hparse

/-- C6 witness: the body `{"a": [1, 2` is missing two closers of mixed
types; the repaired text parses. -/
theorem c6_repair_witness :
    stripTrailingCommas ("\x7b\"a\": [1, 2").data = ("\x7b\"a\": [1, 2").data ∧
    jsonParse (repairJson "\x7b\"a\": [1, 2") =
      .ok (Json.obj [("a", Json.arr [Json.num 1, Json.num 2])]) :=
  ⟨rfl, c6_repair_appends_closers "\x7b\"a\": [1, 2"
    (Json.obj [("a", Json.arr [Json.num 1, Json.num 2])]) rfl rfl⟩

/-- C6 counterexample: the body `{"a": "}"` is valid JSON except for exactly
one missing closing brace (appending `}` parses), yet `repairJson` appends
nothing — the brace inside the string literal balances the count — and the
repaired body still fails to parse. -/
theorem c6_repair_counterexample :
    jsonParse ("\x7b\"a\": \"\x7d\"" ++ "\x7d") = .ok (Json.obj [("a", Json.str "\x7d")]) ∧
    (jsonParse (repairJson "\x7b\"a\": \"\x7d\"")).isOk = false :=
  ⟨rfl, rfl⟩

/-- C5. Advantage/disadvantage duplication: on the mock die sequence
`[5, 17]`, advantage keeps 17 and disadvantage keeps 5; with both flags set
the advantage branch wins (the result is identical to advantage alone, for
every random state); in general advantage keeps the higher and disadvantage
the lower of the two d20 draws; and for any shape other than exactly one
d20 no duplication happens — a single `rollWithModifier` draw is returned
(with an empty `advantageDetail`). -/
theorem c5_advantage_disadvantage (m : Int) (d : String) :
    ((rollWithAdvantage 1 20 m d true false c5MockRand).1.rolls = [17]
      ∧ (rollWithAdvantage 1 20 m d false true c5MockRand).1.rolls = [5])
    ∧ (∀ st : RandState,
        rollWithAdvantage 1 20 m d true true st = rollWithAdvantage 1 20 m d true false st)
    ∧ (∀ st : RandState,
        (rollWithAdvantage 1 20 m d true false st).1.rolls =
          [max (rollDieWord 20 (st.words st.k % 2 ^ 32))
               (rollDieWord 20 (st.words (st.k + 1) % 2 ^ 32))]
        ∧ (rollWithAdvantage 1 20 m d false true st).1.rolls =
          [min (rollDieWord 20 (st.words st.k % 2 ^ 32))
               (rollDieWord 20 (st.words (st.k + 1) % 2 ^ 32))])
    ∧ (∀ (count sides : Nat) (adv dis : Bool) (st : RandState),
        ¬(count = 1 ∧ sides = 20) →
        rollWithAdvantage count sides m d adv dis st =
          ({ (rollWithModifier count sides m d st).1 with advantageDetail := "" },
           (rollWithModifier count sides m d st).2)) := by
  refine ⟨⟨rfl, rfl⟩, fun st => rfl, fun st => ?_, fun count sides adv dis st h => ?_⟩
  · constructor <;>
    · simp only [rollWithAdvantage, rollWithModifier, rollDice, rollDie]
      split_ifs with h1 h2 <;> simp_all
      omega
  · have hcond : ((adv || dis) && count == 1 && sides == 20) = false := by
      by_cases h1 : count = 1
      · by_cases h2 : sides = 20
        · exact absurd ⟨h1, h2⟩ h
        · simp [h2]
      · simp [h1]
    rcases hrm : rollWithModifier count sides m d st with ⟨r, st1⟩
    simp [rollWithAdvantage, hcond, hrm]

/-- C5 witness: a `2d6` roll with the advantage flag set draws no second
die — the duplication rule does not apply outside exactly `1d20`. -/
theorem c5_advantage_witness :
    rollWithAdvantage 2 6 0 "dmg" true false c5MockRand =
      ({ (rollWithModifier 2 6 0 "dmg" c5MockRand).1 with advantageDetail := "" },
       (rollWithModifier 2 6 0 "dmg" c5MockRand).2) :=
  (c5_advantage_disadvantage 0 "dmg").2.2.2 2 6 true false c5MockRand (by decide)

/-- C2 (amended). For every `npc_attack`/`npc_save` request and every
character whose armor class is set to a nonzero value, `resolveNpcRoll`
takes the target DC from the live character's armor class — the request's
`dc` is ignored — and decides hit/miss by comparing the roll total against
that armor class. (The original claim, quantified over every state "in
which the armor class is set", fails when the armor class is `0`: `0` is
falsy in JS, so `character?.armorClass || roll.dc || 12` falls through to
the model-suggested `dc` — see the counterexample.) -/
theorem c2_npc_ac_authority (roll : RollReq) (c : Character) (st : RandState) (ac : Int)
    (hac : c.armorClass = some ac) (hnz : ac ≠ 0) :
    (resolveNpcRoll roll (some c) st).1.dc = some ac
    ∧ (resolveNpcRoll roll (some c) st).1.success =
        decide ((resolveNpcRoll roll (some c) st).1.rolled ≥ ac) := by
  cases hm : roll.modifier <;>
    simp [resolveNpcRoll, hm, hac, hnz, orInt, ge_iff_le]

/-- C2 witness: a concrete character with armor class 14 and a request
suggesting `dc: 5`; the resolved roll is judged against 14. -/
theorem c2_npc_ac_authority_witness :
    (resolveNpcRoll c2Roll (some c9Char) c2Rand).1.dc = some 14
    ∧ (resolveNpcRoll c2Roll (some c9Char) c2Rand).1.success =
        decide ((resolveNpcRoll c2Roll (some c9Char) c2Rand).1.rolled ≥ 14) :=
  c2_npc_ac_authority c2Roll c9Char c2Rand 14 rfl (by decide)

/-- C2 counterexample: with the armor class set to `0` and a request
carrying `dc: 5`, the rolled total 3 meets the real armor class (3 ≥ 0)
but the code reports a miss — success is decided against the request's
`dc: 5`, not the live armor class. -/
theorem c2_npc_ac_zero_counterexample :
    c2CharZeroAC.armorClass = some 0
    ∧ (resolveNpcRoll c2Roll (some c2CharZeroAC) c2Rand).1.rolled = 3
    ∧ (resolveNpcRoll c2Roll (some c2CharZeroAC) c2Rand).1.rolled ≥ 0
    ∧ (resolveNpcRoll c2Roll (some c2CharZeroAC) c2Rand).1.success = false :=
  ⟨rfl, rfl, by decide, rfl⟩

/-- C9 (amended). For a request that is neither an NPC roll nor a damage
roll, `resolveRolls` resolves it as a player roll only when it carries a
truthy `skill` (and a non-null character): the modifier comes from the
skill→ability mapping with proficiency for known skills, the literal skill
name "attack" means max(STR, DEX) + proficiency, and an unrecognized skill
name degrades to a flat d20 with zero modifier rather than being dropped.
(The original claim also let a request carrying only an `ability` — with
`skill` absent — be resolved; the code's guard `roll.skill && character`
drops such a request, see the counterexample.) Flags are off so a single
die is drawn; the die face is `rollDieWord` of the first stream word. -/
theorem c9_player_roll_resolution (roll : RollReq) (c : Character) (st : RandState)
    (s : String)
    (ht1 : roll.type ≠ some "npc_attack") (ht2 : roll.type ≠ some "npc_save")
    (ht3 : roll.type ≠ some "damage_roll")
    (hs : roll.skill = some s) (hne : s ≠ "")
    (hadv : roll.advantage = false) (hdis : roll.disadvantage = false) :
    ∃ out acts st',
      resolveRolls [roll] (some c) st = ([out], acts, st')
      ∧ out.skill = some s
      ∧ out.success = decide (out.rolled ≥ orInt roll.dc 15)
      ∧ (SKILL_ABILITIES.lookup (jsToLower s) ≠ none →
          out.rolled = Int.ofNat (rollDieWord 20 (st.words st.k % 2 ^ 32))
            + getSkillModifier c (jsToLower s))
      ∧ (jsToLower s = "attack" →
          out.rolled = Int.ofNat (rollDieWord 20 (st.words st.k % 2 ^ 32))
            + (max (getModifier c.abilityScores.strength)
                   (getModifier c.abilityScores.dexterity)
               + getProficiencyBonus c.level))
      ∧ (SKILL_ABILITIES.lookup (jsToLower s) = none →
          ABILITY_NAMES.contains (jsToLower s) = false →
          jsToLower s ≠ "attack" →
          out.rolled = Int.ofNat (rollDieWord 20 (st.words st.k % 2 ^ 32))) := by
  have hsk : strTruthy roll.skill = true := by simp [hs, strTruthy, hne]
  have hatkLookup : SKILL_ABILITIES.lookup "attack" = none := rfl
  have hatkNames : "attack" ∉ ABILITY_NAMES := by decide
  rcases hres : resolvePlayerRoll roll c st with ⟨out, acts, st'⟩
  have hout : out = (resolvePlayerRoll roll c st).1 := by rw [hres]
  refine ⟨out, acts, st', by simp [resolveRolls, ht1, ht2, ht3, hsk, hres], ?_, ?_, ?_, ?_, ?_⟩ <;>
    subst hout
  · simp [resolvePlayerRoll, hs, hadv, hdis, rollWithAdvantage, rollWithModifier,
      rollDice, rollDie]
  · simp [resolvePlayerRoll, hs, hadv, hdis, rollWithAdvantage, rollWithModifier,
      rollDice, rollDie]
  · intro hln
    have hib : (SKILL_ABILITIES.lookup (jsToLower s)).isSome = true :=
      Option.isSome_iff_ne_none.mpr hln
    simp [resolvePlayerRoll, hs, hadv, hdis, rollWithAdvantage, rollWithModifier,
      rollDice, rollDie, hib]
  · intro hat
    simp [resolvePlayerRoll, hs, hadv, hdis, rollWithAdvantage, rollWithModifier,
      rollDice, rollDie, hat, hatkLookup, hatkNames]
  · intro hab han hat
    have han' : jsToLower s ∉ ABILITY_NAMES := by simpa using han
    simp [resolvePlayerRoll, hs, hadv, hdis, rollWithAdvantage, rollWithModifier,
      rollDice, rollDie, hab, han', hat]

/-- C9 witness: a concrete "Stealth" skill check against a concrete
character resolves as a player roll with the mapped modifier. -/
theorem c9_player_roll_witness :
    ∃ out acts st',
      resolveRolls [c9WitnessRoll] (some c9Char) c2Rand = ([out], acts, st')
      ∧ out.skill = some "Stealth"
      ∧ out.success = decide (out.rolled ≥ orInt c9WitnessRoll.dc 15)
      ∧ (SKILL_ABILITIES.lookup (jsToLower "Stealth") ≠ none →
          out.rolled = Int.ofNat (rollDieWord 20 (c2Rand.words c2Rand.k % 2 ^ 32))
            + getSkillModifier c9Char (jsToLower "Stealth"))
      ∧ (jsToLower "Stealth" = "attack" →
          out.rolled = Int.ofNat (rollDieWord 20 (c2Rand.words c2Rand.k % 2 ^ 32))
            + (max (getModifier c9Char.abilityScores.strength)
                   (getModifier c9Char.abilityScores.dexterity)
               + getProficiencyBonus c9Char.level))
      ∧ (SKILL_ABILITIES.lookup (jsToLower "Stealth") = none →
          ABILITY_NAMES.contains (jsToLower "Stealth") = false →
          jsToLower "Stealth" ≠ "attack" →
          out.rolled = Int.ofNat (rollDieWord 20 (c2Rand.words c2Rand.k % 2 ^ 32))) :=
  c9_player_roll_resolution c9WitnessRoll c9Char c2Rand "Stealth"
    (by decide) (by decide) (by decide) rfl (by decide) rfl rfl

/-- C9 counterexample: a request carrying only an `ability` (its `skill`
absent) is not resolved at all — `resolveRolls` returns no outcome and
dispatches nothing, contradicting the claim that such a request is still
resolved. -/
theorem c9_ability_only_dropped :
    c9AbilityOnly.ability = some "dexterity"
    ∧ c9AbilityOnly.skill = none
    ∧ resolveRolls [c9AbilityOnly] (some c9Char) c2Rand = ([], [], c2Rand) :=
  ⟨rfl, rfl, rfl⟩

/-- Inversion for `normalizeEvents` on an object: a successful result is
`buildEvents` of the raw object, and the roll list is empty whenever
`requested_rolls` is absent. -/
theorem normalizeEvents_obj_inv (ks : List (String × Json)) (e : Json)
    (h : normalizeEvents (Json.obj ks) = .ok e) :
    ∃ rolls, e = buildEvents (Json.obj ks) rolls
      ∧ (ks.lookup "requested_rolls" = none → rolls = []) := by
  simp only [normalizeEvents] at h
  rcases hnf : normalizeRollsField (Json.obj ks) with er | rolls
  · simp only [hnf] at h
    exact absurd h (by simp)
  · simp only [hnf, Except.ok.injEq] at h
    refine ⟨rolls, h.symm, fun hn => ?_⟩
    have : normalizeRollsField (Json.obj ks) = .ok [] := by
      simp [normalizeRollsField, jsGet, hn]
    rw [hnf] at this
    simpa using this.symm

/-- C4 (amended). Normalization always yields the fully-populated events
object: its keys are exactly the 27 camelCase `GameEvents` keys, and every
field whose snake_case input key is absent holds its documented default
(never `undefined`). But `normalizeEvents` is NOT a projection: it reads
snake_case keys and writes camelCase keys, so a second application resets
every field except `location` and `healing` (the two keys spelled the same
on both sides) to its default — re-normalizing a normalized object is the
same as normalizing an object carrying only its `location` and `healing`.
Idempotence as originally claimed fails, see the counterexample. -/
theorem c4_normalization_projection (ks : List (String × Json)) (e : Json)
    (h : normalizeEvents (Json.obj ks) = .ok e) :
    jsonKeys e = eventDefaults.map (fun t => t.2.1)
    ∧ (∀ sk ck d, (sk, ck, d) ∈ eventDefaults → ks.lookup sk = none → jsGet e ck = some d)
    ∧ normalizeEvents e = .ok (buildEvents
        (Json.obj [("location", (jsGet e "location").getD .null),
                   ("healing", (jsGet e "healing").getD .null)]) []) := by
  obtain ⟨rolls, rfl, hroll⟩ := normalizeEvents_obj_inv ks e h
  refine ⟨rfl, ?_, ?_⟩
  · intro sk ck d hmem hnone
    simp only [eventDefaults, List.mem_cons, List.not_mem_nil,
      Prod.mk.injEq] at hmem
    rcases hmem with ⟨rfl, rfl, rfl⟩ | hmem
    · simp [buildEvents, jsGet, List.lookup, hroll hnone]
    repeat' rcases hmem with ⟨rfl, rfl, rfl⟩ | hmem
    all_goals
      simp [buildEvents, jsGet, List.lookup, numOr, jsOr, arrOr, strOrNull, jsBool, hnone]
  · rfl

/-- C4 witness: normalizing `{damage_taken: 5}` (which lacks every other
field) and checking the three conclusions at that concrete input. -/
theorem c4_normalization_witness :
    jsonKeys (buildEvents c4raw []) = eventDefaults.map (fun t => t.2.1)
    ∧ (∀ sk ck d, (sk, ck, d) ∈ eventDefaults →
        List.lookup sk [("damage_taken", Json.num 5)] = none →
        jsGet (buildEvents c4raw []) ck = some d)
    ∧ normalizeEvents (buildEvents c4raw []) = .ok (buildEvents
        (Json.obj [("location", (jsGet (buildEvents c4raw []) "location").getD .null),
                   ("healing", (jsGet (buildEvents c4raw []) "healing").getD .null)]) []) :=
  c4_normalization_projection [("damage_taken", Json.num 5)] (buildEvents c4raw []) rfl

/-- C4 counterexample: for `o = {damage_taken: 5}`, `normalizeEvents(o)`
carries `damageTaken: 5`, but normalizing it again resets `damageTaken` to
`0` (the output key `damageTaken` is not the input key `damage_taken`), so
`normalizeEvents(normalizeEvents(o))` is not deep-equal to
`normalizeEvents(o)` — normalization is not idempotent. -/
theorem c4_not_idempotent :
    (normalizeEvents c4raw).bind normalizeEvents ≠ normalizeEvents c4raw := by
  intro h
  have h2 : (some (Json.num 0) : Option Json) = some (Json.num 5) :=
    congrArg (fun r => (Except.toOption r).bind (fun e => jsGet e "damageTaken")) h
  simp at h2

/-- The number of naturals below `N` with residue `r` modulo `s`: `N / s`,
plus one when `r` falls below the leftover `N % s`. -/
theorem card_range_filter_mod (s r : Nat) (hs : 0 < s) (hr : r < s) (N : Nat) :
    ((Finset.range N).filter (fun w => w % s = r)).card
      = N / s + if r < N % s then 1 else 0 := by
  induction N with
  | zero => simp
  | succ n ih =>
    have hdm := Nat.div_add_mod n s
    have hmlt := Nat.mod_lt n hs
    have hkey : ((n + 1) / s = n / s ∧ (n + 1) % s = n % s + 1)
        ∨ ((n + 1) / s = n / s + 1 ∧ (n + 1) % s = 0 ∧ n % s + 1 = s) := by
      by_cases hend : n % s + 1 = s
      · right
        have hmul : n + 1 = s * (n / s + 1) := by rw [Nat.mul_succ]; omega
        refine ⟨?_, ?_, hend⟩
        · rw [hmul, Nat.mul_div_cancel_left _ hs]
        · rw [hmul]; exact Nat.mul_mod_right s _
      · left
        have huniq := (Nat.div_mod_unique hs (a := n + 1) (c := n % s + 1)
          (d := n / s)).mpr ⟨by omega, by omega⟩
        exact ⟨huniq.1, huniq.2⟩
    rw [Finset.range_succ, Finset.filter_insert]
    by_cases hm : n % s = r
    · rw [if_pos hm, Finset.card_insert_of_not_mem (by simp), ih]
      rcases hkey with ⟨hq, hm2⟩ | ⟨hq, hm2, hend⟩ <;> rw [hq, hm2] <;> split_ifs <;> omega
    · rw [if_neg hm, ih]
      rcases hkey with ⟨hq, hm2⟩ | ⟨hq, hm2, hend⟩ <;> rw [hq, hm2] <;> split_ifs <;> omega

/-- C7 (amended). `rollDie(sides)` always returns an integer in
`[1, sides]`, and the distribution over a uniform 32-bit word is *almost*
uniform: face `f` has `2^32 / sides` preimage words, plus one exactly when
`f - 1 < 2^32 % sides`. Exact uniformity therefore holds only when `sides`
divides `2^32`; for `sides = 20` the remainder is 16, so faces 1–16 have one
more preimage than faces 17–20 — the `% sides` construction has a (tiny)
modulo bias, refuting the claim's "exactly the same number of preimage
words" (see the counterexample). -/
theorem c7_rollDie_range_and_bias (sides w : Nat) (hs : 0 < sides) :
    (1 ≤ rollDieWord sides w ∧ rollDieWord sides w ≤ sides)
    ∧ ∀ f, 1 ≤ f → f ≤ sides →
        ((Finset.range (2 ^ 32)).filter (fun x => rollDieWord sides x = f)).card
          = 2 ^ 32 / sides + if f - 1 < 2 ^ 32 % sides then 1 else 0 := by
  constructor
  · have := Nat.mod_lt w hs
    unfold rollDieWord
    omega
  · intro f h1 h2
    have hconv : ∀ x : Nat, (rollDieWord sides x = f) ↔ (x % sides = f - 1) := by
      intro x
      unfold rollDieWord
      omega
    rw [Finset.filter_congr (fun x _ => hconv x)]
    exact card_range_filter_mod sides (f - 1) hs (by omega) (2 ^ 32)

/-- C7 witness: the bound and the preimage count evaluated for a d20 at the
concrete word 7 and face 5 (`2^32 / 20 = 214748364`, remainder 16). -/
theorem c7_rollDie_witness :
    (1 ≤ rollDieWord 20 7 ∧ rollDieWord 20 7 ≤ 20)
    ∧ ((Finset.range (2 ^ 32)).filter (fun x => rollDieWord 20 x = 5)).card
        = 2 ^ 32 / 20 + if 5 - 1 < 2 ^ 32 % 20 then 1 else 0 :=
  ⟨(c7_rollDie_range_and_bias 20 7 (by decide)).1,
   (c7_rollDie_range_and_bias 20 7 (by decide)).2 5 (by decide) (by decide)⟩

/-- C7 counterexample: for `sides = 20` the faces do NOT all have the same
number of preimage words in `[0, 2^32)`: face 1 has 214748365 preimages and
face 17 has 214748364 — `2^32` is not divisible by 20, so `rollDie` has a
modulo bias (about one part in 2×10^8, far below what the spec's
chi-square test at N = 100000 could detect, but nonzero). -/
theorem c7_modulo_bias_counterexample :
    ((Finset.range (2 ^ 32)).filter (fun w => rollDieWord 20 w = 1)).card = 214748365
    ∧ ((Finset.range (2 ^ 32)).filter (fun w => rollDieWord 20 w = 17)).card = 214748364
    ∧ (214748365 : Nat) ≠ 214748364 := by
  refine ⟨?_, ?_, by decide⟩
  · have hconv : ∀ x : Nat, (rollDieWord 20 x = 1) ↔ (x % 20 = 0) := by
      intro x; unfold rollDieWord; omega
    rw [Finset.filter_congr (fun x _ => hconv x),
      card_range_filter_mod 20 0 (by decide) (by decide) (2 ^ 32)]
    decide
  · have hconv : ∀ x : Nat, (rollDieWord 20 x = 17) ↔ (x % 20 = 16) := by
      intro x; unfold rollDieWord; omega
    rw [Finset.filter_congr (fun x _ => hconv x),
      card_range_filter_mod 20 16 (by decide) (by decide) (2 ^ 32)]
    decide

/-- A batch of NPC-attack requests resolves one-for-one: one outcome and one
dispatched `ADD_ROLL` per request, and no hidden message among the batch's
dispatches. -/
theorem resolveRolls_npc_counts (rolls : List RollReq) (c : Option Character)
    (st : RandState) (h : ∀ r ∈ rolls, r.type = some "npc_attack") :
    (resolveRolls rolls c st).1.length = rolls.length
    ∧ (resolveRolls rolls c st).2.1.countP Action.isAddRoll = rolls.length
    ∧ (resolveRolls rolls c st).2.1.countP Action.isHiddenMsg = 0 := by
  induction rolls generalizing st with
  | nil => simp [resolveRolls]
  | cons r rest ih =>
    have hr : r.type = some "npc_attack" := h r (by simp)
    have hrest : ∀ x ∈ rest, x.type = some "npc_attack" := fun x hx => h x (by simp [hx])
    have hone : (resolveNpcRoll r c st).2.1.countP Action.isAddRoll = 1 := by
      simp [resolveNpcRoll, List.countP_cons, Action.isAddRoll]
    have hzero : (resolveNpcRoll r c st).2.1.countP Action.isHiddenMsg = 0 := by
      simp [resolveNpcRoll, List.countP_cons, Action.isHiddenMsg]
    obtain ⟨ih1, ih2, ih3⟩ := ih ((resolveNpcRoll r c st).2.2) hrest
    refine ⟨?_, ?_, ?_⟩ <;>
      simp [resolveRolls, hr, List.countP_append, ih1, ih2, ih3, hone, hzero,
        Nat.add_comm]

/-- The last element of a cons with a nonempty tail is the tail's last. -/
theorem getLast?_cons_of_ne_nil {α : Type} (a : α) (l : List α) (h : l ≠ []) :
    (a :: l).getLast? = l.getLast? := by
  cases l with
  | nil => exact absurd rfl h
  | cons b t => simp [List.getLast?_cons_cons]

/-- C1. With a model that answers every follow-up with at least one further
(NPC) roll, `handleRequestedRolls` performs exactly `MAX_ROLL_DEPTH` = 3
resolution rounds — the final trace carries exactly 3 hidden roll-summary
messages and the `ADD_ROLL` records of exactly the three rounds' requests —
and then terminates with the user-visible chain-limit notice as its last
dispatch; invoked at any depth ≥ 3 it resolves no rolls and only dispatches
the notice. Termination itself is the totality of the embedding (the
recursion is bounded by `MAX_ROLL_DEPTH - depth`). -/
theorem c1_depth_bound (char : Option Character) (f : Nat → List RollReq)
    (hf : ∀ i, f i ≠ [] ∧ ∀ r ∈ f i, r.type = some "npc_attack")
    (reqs : List RollReq) (hr1 : reqs ≠ []) (hr2 : ∀ r ∈ reqs, r.type = some "npc_attack")
    (rand : RandState) :
    (∀ d, MAX_ROLL_DEPTH ≤ d → ∀ st : LoopState,
        handleRequestedRolls reqs ⟨char, fun i _ => .ok (some (f i)), false⟩ d st
          = .ok { st with trace := st.trace ++ [chainLimitMsg] })
    ∧ ∃ t, handleRequestedRolls reqs ⟨char, fun i _ => .ok (some (f i)), false⟩ 0
          ⟨rand, 0, []⟩ = .ok t
        ∧ t.trace.countP Action.isHiddenMsg = 3
        ∧ t.trace.countP Action.isAddRoll = reqs.length + (f 0).length + (f 1).length
        ∧ t.trace.getLast? = some chainLimitMsg := by
  have step : ∀ (fuel depth : Nat) (rs : List RollReq) (st : LoopState),
      depth < MAX_ROLL_DEPTH → rs ≠ [] → (∀ r ∈ rs, r.type = some "npc_attack") →
      handleGo (fuel + 1) rs ⟨char, fun i _ => .ok (some (f i)), false⟩ depth st
        = handleGo fuel (f st.calls) ⟨char, fun i _ => .ok (some (f i)), false⟩ (depth + 1)
            { rand := (resolveRolls rs char st.rand).2.2,
              calls := st.calls + 1,
              trace := st.trace ++ (resolveRolls rs char st.rand).2.1
                ++ [Action.addMessage "system"
                      (formatRollSummary (resolveRolls rs char st.rand).1) true] } := by
    intro fuel depth rs st hd hne hnpc
    obtain ⟨l1, -, -⟩ := resolveRolls_npc_counts rs char st.rand hnpc
    have hpos : 0 < (resolveRolls rs char st.rand).1.length :=
      l1 ▸ List.length_pos.mpr hne
    have hfpos : 0 < (f st.calls).length := List.length_pos.mpr (hf st.calls).1
    simp [handleGo, Nat.not_le.mpr hd, hpos, hfpos, List.append_assoc]
  constructor
  · intro d hd st
    have h0 : MAX_ROLL_DEPTH - d = 0 := by
      simp only [MAX_ROLL_DEPTH] at hd ⊢
      omega
    simp [handleRequestedRolls, h0, handleGo, hd]
  · have main := calc
        handleRequestedRolls reqs ⟨char, fun i _ => .ok (some (f i)), false⟩ 0
            ⟨rand, 0, []⟩
          = handleGo 3 reqs ⟨char, fun i _ => .ok (some (f i)), false⟩ 0
            ⟨rand, 0, []⟩ := rfl
        _ = handleGo 2 (f 0) ⟨char, fun i _ => .ok (some (f i)), false⟩ 1 _ :=
            step 2 0 reqs ⟨rand, 0, []⟩ (by decide) hr1 hr2
        _ = handleGo 1 (f 1) ⟨char, fun i _ => .ok (some (f i)), false⟩ 2 _ :=
            step 1 1 (f 0) _ (by decide) (hf 0).1 (hf 0).2
        _ = handleGo 0 (f 2) ⟨char, fun i _ => .ok (some (f i)), false⟩ 3 _ :=
            step 0 2 (f 1) _ (by decide) (hf 1).1 (hf 1).2
        _ = .ok _ := rfl
    refine ⟨_, main, ?_, ?_, ?_⟩
    all_goals
      obtain ⟨l1, a1, z1⟩ := resolveRolls_npc_counts reqs char rand hr2
      obtain ⟨l2, a2, z2⟩ := resolveRolls_npc_counts (f 0) char
        (resolveRolls reqs char rand).2.2 (hf 0).2
      obtain ⟨l3, a3, z3⟩ := resolveRolls_npc_counts (f 1) char
        (resolveRolls (f 0) char (resolveRolls reqs char rand).2.2).2.2 (hf 1).2
    · simp [List.countP_append, List.countP_cons, z1, z2, z3,
        Action.isHiddenMsg, chainLimitMsg]
    · simp [List.countP_append, List.countP_cons, a1, a2, a3,
        Action.isAddRoll, chainLimitMsg]
      omega
    · simp
      rw [getLast?_cons_of_ne_nil _ _ (by simp), List.getLast?_append_of_ne_nil _ (by simp),
        getLast?_cons_of_ne_nil _ _ (by simp), List.getLast?_append_of_ne_nil _ (by simp)]
      rfl

/-- C8 (amended). When the transport fails during the follow-up step, the
failure is caught inside `handleRequestedRolls` (it is logged, not
re-thrown): the returned promise RESOLVES — the result is `.ok`, never a
rejection — and every roll dispatched before the failure remains in the
trace as a committed `ADD_ROLL` record (one per request of the batch, on
top of whatever the trace already held). The original claim's "propagated
to the orchestrating caller as a rejected promise" does not hold, see the
counterexample. -/
theorem c8_transport_failure_swallowed (char : Option Character) (err : String)
    (reqs : List RollReq) (hr1 : reqs ≠ []) (hr2 : ∀ r ∈ reqs, r.type = some "npc_attack")
    (rand : RandState) (calls : Nat) (trace : List Action) :
    ∃ t, handleRequestedRolls reqs ⟨char, fun _ _ => .error err, false⟩ 0
          ⟨rand, calls, trace⟩ = .ok t
      ∧ t.trace.countP Action.isAddRoll
          = trace.countP Action.isAddRoll + reqs.length := by
  obtain ⟨l1, a1, z1⟩ := resolveRolls_npc_counts reqs char rand hr2
  have hpos : 0 < (resolveRolls reqs char rand).1.length :=
    l1 ▸ List.length_pos.mpr hr1
  have main : handleRequestedRolls reqs ⟨char, fun _ _ => .error err, false⟩ 0
      ⟨rand, calls, trace⟩
      = .ok ⟨(resolveRolls reqs char rand).2.2, calls + 1,
          trace ++ (resolveRolls reqs char rand).2.1
            ++ [Action.addMessage "system"
                  (formatRollSummary (resolveRolls reqs char rand).1) true]⟩ := by
    show handleGo 3 reqs ⟨char, fun _ _ => .error err, false⟩ 0 ⟨rand, calls, trace⟩ = _
    simp [handleGo, hpos, List.append_assoc, MAX_ROLL_DEPTH]
  refine ⟨_, main, ?_⟩
  simp [List.countP_append, List.countP_cons, a1, Action.isAddRoll]

/-- C8 witness: a one-request batch against an always-failing transport —
the loop resolves (does not reject) and the dispatched roll record stays. -/
theorem c8_transport_failure_witness :
    ∃ t, handleRequestedRolls [loopNpcReq] failEnv 0 ⟨loopRand, 0, []⟩ = .ok t
      ∧ t.trace.countP Action.isAddRoll
          = List.countP Action.isAddRoll [] + [loopNpcReq].length :=
  c8_transport_failure_swallowed none "network error" [loopNpcReq]
    (by simp) (by simp [loopNpcReq]) loopRand 0 []

/-- C8 counterexample: at a concrete always-failing transport the returned
promise resolves (`isOk`), contradicting the claim that the failure is
propagated as a rejected promise; the roll dispatched before the failure is
still in the trace. -/
theorem c8_no_rejection_counterexample :
    (handleRequestedRolls [loopNpcReq] failEnv 0 loopSt).isOk = true
    ∧ (traceOf (handleRequestedRolls [loopNpcReq] failEnv 0 loopSt)).countP
        Action.isAddRoll = 1
    ∧ (traceOf (handleRequestedRolls [loopNpcReq] failEnv 0 loopSt)).countP
        Action.isHiddenMsg = 1 :=
  ⟨rfl, rfl, rfl⟩

/-- C1 witness: the mock model that always requests one further NPC roll,
run from a concrete state — exactly three resolution rounds (three hidden
summaries, three roll records) and the chain-limit notice last; and at
depth 3 only the notice. -/
theorem c1_depth_bound_witness :
    (∀ d, MAX_ROLL_DEPTH ≤ d → ∀ st : LoopState,
        handleRequestedRolls [loopNpcReq] ⟨none, fun i _ => .ok (some (alwaysRollLLM i)), false⟩ d st
          = .ok { st with trace := st.trace ++ [chainLimitMsg] })
    ∧ ∃ t, handleRequestedRolls [loopNpcReq]
          ⟨none, fun i _ => .ok (some (alwaysRollLLM i)), false⟩ 0
          ⟨loopRand, 0, []⟩ = .ok t
        ∧ t.trace.countP Action.isHiddenMsg = 3
        ∧ t.trace.countP Action.isAddRoll
            = [loopNpcReq].length + (alwaysRollLLM 0).length + (alwaysRollLLM 1).length
        ∧ t.trace.getLast? = some chainLimitMsg :=
  c1_depth_bound none alwaysRollLLM
    (fun _ => ⟨by simp [alwaysRollLLM], by simp [alwaysRollLLM, loopNpcReq]⟩)
    [loopNpcReq] (by simp) (by simp [loopNpcReq]) loopRand

end QuestForge
